import Mathlib

/-!
Kluchnik: hardware password generator firmware.

A shallow embedding of `src/knuchnik/knuchnik.h` and proofs about its wire
encoder, padding, counter read-out, key assembly, request dispatcher and menu
navigation.

Conventions of the embedding:

* `byte` / `uint8_t` is `Fin 256`; `int` is `Int` (no claim drives a value
  near the 32-bit limits).
* A C buffer passed as pointer and length is a `List Byte`; the fixed 16-byte
  buffers (`generatedKey`, `iv`, one cipher block) are `Mathlib.Vector Byte 16`.
* The Arduino `String` is a Lean `String`; the received line `currentLine` is
  the list of its characters.
* Display, serial-log and `delay` calls touch neither the device variables nor
  the client socket and are left out.
* A loop that waits on a button runs against the list of what its iterations
  read; once the list is used up the loop is never left, and a call that never
  returns has result `none`.
-/

namespace Kluchnik

/-- A `byte` (`uint8_t`) value. -/
abbrev Byte := Fin 256

/-- A fixed buffer of 16 bytes: an AES block, the IV, the generated key. -/
abbrev Block := Mathlib.Vector Byte 16

/-- Truncation of an `int` result to `byte` on assignment. -/
def toByte (n : Nat) : Byte := ⟨n % 256, Nat.mod_lt n (by decide)⟩

/-- AES-128 key size in bytes (`KEY_SIZE * 8` is the key length in bits passed
to `mbedtls_aes_setkey_enc`). -/
def KEY_SIZE : Nat := 16

/-- AES block size in bytes. -/
def BLOCK_SIZE : Nat := 16

/-! ## Wire encoder: `sendToPC` -/

/-- Arduino `String(int)`: the decimal rendering, with a leading `-` for a
negative value. -/
def stringOfInt : Int → String
  | Int.ofNat n => Nat.repr n
  | Int.negSucc n => "-" ++ Nat.repr (n + 1)

/-- One uppercase hexadecimal digit, as `%X` prints it. -/
def hexDigitUpper (d : Nat) : Char :=
  if d < 10 then Char.ofNat (48 + d) else Char.ofNat (55 + d)

/-- The digits of `v` in base 16, most significant first, uppercase.
`fuel` bounds the number of digits. -/
def hexDigits : Nat → Nat → List Char → List Char
  | 0, _, acc => acc
  | fuel + 1, v, acc =>
    if v < 16 then hexDigitUpper v :: acc
    else hexDigits fuel (v / 16) (hexDigitUpper (v % 16) :: acc)

/-- Source `sprintf(hexBuffer, "%02X", v)`: uppercase hex, zero-padded on the left to
a minimum width of two. -/
def sprintf_02X (v : Nat) : String :=
  let ds := hexDigits (v + 1) v []
  String.mk (List.replicate (2 - ds.length) '0' ++ ds)

/-- The `for` loop of `sendToPC`: `payload += hexBuffer` for each byte in
order. -/
def sendToPC_loop : List Byte → String → String
  | [], payload => payload
  | b :: rest, payload => sendToPC_loop rest (payload ++ sprintf_02X b.val)

/-- Source `sendToPC(client, dataToSend, len)`: the string handed to `client.print`.
The pair `dataToSend`, `len` is the list of the `len` bytes read. -/
def sendToPC (passwordLength complexityLevel : Int) (dataToSend : List Byte) : String :=
  let payload := "LEN:" ++ stringOfInt passwordLength ++
                 ",COMPLEX:" ++ stringOfInt complexityLevel ++
                 ",KEY:"
  let payload := sendToPC_loop dataToSend payload
  payload ++ "\n"

/-- The hex field as the wire format words it: each byte in order as its high
nibble digit then its low nibble digit, concatenated with no separators. -/
def hexField (data : List Byte) : String :=
  String.join (data.map fun b =>
    String.mk [hexDigitUpper (b.val / 16), hexDigitUpper (b.val % 16)])

/-- The value of an uppercase hexadecimal digit character. -/
def hexValue (c : Char) : Option Nat :=
  if '0' ≤ c ∧ c ≤ '9' then some (c.toNat - 48)
  else if 'A' ≤ c ∧ c ≤ 'F' then some (c.toNat - 55)
  else none

/-! ## Padding: `applyPadding` -/

/-- Modelled from the spec: the body of `applyPadding`, of which the source
holds only the declaration. `padValue = blockSize - (inputLen mod blockSize)`,
the output is the input followed by `padValue` bytes of value `padValue`, and
the returned length is `inputLen + padValue`. The result pairs the returned
length with the bytes written to `output`. -/
def applyPadding (input : List Byte) : Nat × List Byte :=
  let inputLen := input.length
  let padValue := BLOCK_SIZE - inputLen % BLOCK_SIZE
  (inputLen + padValue, input ++ List.replicate padValue (toByte padValue))

/-! ## Counter read-out: `readCounter` -/

/-- The loop of `readCounter` from index `i` on: `fuel` iterations remain,
`value` is the byte built so far. `counterPins i` is the pin wired to counter
line `i`; `digitalRead pin` is true when that pin reads `HIGH`. -/
def readCounter_loop (counterPins : Nat → Nat) (digitalRead : Nat → Bool) :
    Nat → Nat → Byte → Byte
  | 0, _, value => value
  | fuel + 1, i, value =>
    let value := if digitalRead (counterPins i) then toByte (value.val ||| (1 <<< i)) else value
    readCounter_loop counterPins digitalRead fuel (i + 1) value

/-- Source `readCounter()`: `value = 0`, then lines 0 to 7 in order. -/
def readCounter (counterPins : Nat → Nat) (digitalRead : Nat → Bool) : Byte :=
  readCounter_loop counterPins digitalRead 8 0 0

/-- The byte with bit `k` equal to `bk`. -/
def byteOfBits (b0 b1 b2 b3 b4 b5 b6 b7 : Bool) : Nat :=
  (if b0 then 1 else 0) + (if b1 then 2 else 0) + (if b2 then 4 else 0) +
  (if b3 then 8 else 0) + (if b4 then 16 else 0) + (if b5 then 32 else 0) +
  (if b6 then 64 else 0) + (if b7 then 128 else 0)

/-! ## Block cipher: `encrypt_cbc` -/

/-- Bytewise exclusive or of two blocks (`output[i] = input[i] ^ iv[i]`). -/
def xorBlock (a b : Block) : Block :=
  Mathlib.Vector.map₂ (fun x y => x ^^^ y) a b

/-- The next 16 bytes of a buffer; `none` when fewer than 16 remain (a read
past the end of the buffer). -/
def readBlock (input : List Byte) : Option Block :=
  if h : (input.take 16).length = 16 then some ⟨input.take 16, h⟩ else none

/-- Modelled from the spec: the chaining loop of the external CBC capability
(`mbedtls_aes_crypt_cbc` in encrypt mode), "each block XORed with the previous
ciphertext block, or IV for the first, before the forward cipher transform".
`enc` is the forward transform of one block under the key already set up,
`n` the number of blocks left, `iv` the running chaining value. -/
def cbc_loop (enc : Block → Block) : Nat → Block → List Byte → Option (List Byte)
  | 0, _, _ => some []
  | n + 1, iv, input =>
    match readBlock input with
    | none => none
    | some blk =>
      let out := enc (xorBlock blk iv)
      match cbc_loop enc n out (input.drop 16) with
      | none => none
      | some rest => some (out.toList ++ rest)

/-- Modelled from the spec: `mbedtls_aes_crypt_cbc(&aes, MBEDTLS_AES_ENCRYPT,
length, iv, input, output)`. The bytes written to `output`, or `none` when the
call writes nothing: `length` is not a multiple of the block size. -/
def mbedtls_aes_crypt_cbc (enc : Block → Block) (length : Nat) (iv : Block)
    (input : List Byte) : Option (List Byte) :=
  if length % 16 ≠ 0 then none else cbc_loop enc (length / 16) iv input

/-! ## Device state and platform -/

/-- The global device variables the handlers read and write. -/
structure Device where
  selector : Int
  top_line_index : Int
  passwordLength : Int
  complexityLevel : Int
  generatedKey : Block
deriving DecidableEq

/-- What one iteration of a settings-screen loop reads: whether
`(millis() - lastDebounceTime) > debounceDelay` holds, and whether each button
reads `LOW` (pressed). -/
structure Sample where
  debounced : Bool
  up : Bool
  down : Bool
  select : Bool
deriving DecidableEq

/-- The constants and external capabilities the source file uses but does not
define, and what the front-panel buttons show while a screen is open. -/
structure Platform where
  /-- Number of menu entries. -/
  MENU_ITEMS_COUNT : Int
  /-- The pin wired to counter line `i` (`counterPins[i]`). -/
  counterPins : Nat → Nat
  /-- The fixed 16-byte symmetric key. -/
  encryptionKey : Block
  /-- The fixed 16-byte initialisation vector. -/
  iv : Block
  /-- The AES forward transform of one block under a key
  (`mbedtls_aes_setkey_enc` followed by one block encryption). -/
  aes_encrypt : Block → Block → Block
  /-- Number of complexity names
  (`sizeof(complexityNames) / sizeof(char*)`). -/
  numComplexityLevels : Int
  /-- What the iterations of the `chooseLength` loop read, in order; past the
  list the loop is never left. -/
  lengthPanel : List Sample
  /-- What the iterations of the `chooseComplexity` loop read, in order; past
  the list the loop is never left. -/
  complexityPanel : List Sample
  /-- Whether `BUTTON_SELECT` reads `LOW` at each poll of the wait in
  `displayAbout`, in order; past the list it reads `HIGH` for ever. -/
  aboutReads : List Bool

/-- The handlers `handleRemoteClient` can call. -/
inductive Command where
  | GET_DATA
  | CMD_UP
  | CMD_DOWN
  | CMD_SELECT
deriving DecidableEq

/-- The device variables together with the bookkeeping of a run: how many
times `generateRandomByte` has been called, and which handlers
`handleRemoteClient` has called, most recent first. -/
structure State where
  dev : Device
  samples : Nat
  dispatched : List Command
deriving DecidableEq

/-- One client connection. `incoming` lists what each wait for data will
yield, in order: `some c` when character `c` becomes available within the
1000 ms window, `none` when the window elapses with nothing to read; once the
list is empty the peer is gone (`client.connected()` is false). `sent` holds
the strings passed to `client.print`, oldest first; `stopped` records
`client.stop()`. -/
structure Client where
  incoming : List (Option Char)
  sent : List String
  stopped : Bool
deriving DecidableEq

/-- Source `client.print(payload)`. -/
def Client.print (client : Client) (payload : String) : Client :=
  { client with sent := client.sent ++ [payload] }

/-- Source `client.stop()`. -/
def Client.stop (client : Client) : Client :=
  { client with stopped := true }

/-- Source `encrypt_cbc(input, len, key, iv_local, output)`: the bytes written to
`output`, `none` when the cipher call writes nothing. -/
def encrypt_cbc (P : Platform) (input : List Byte) (len : Nat) (key : Block)
    (iv_local : Block) : Option (List Byte) :=
  mbedtls_aes_crypt_cbc (P.aes_encrypt key) len iv_local input

/-! ## Entropy and key assembly -/

/-- Source `generateRandomByte()`: the reset pulse and the 200 ms gating loop drive
output pins only; the returned byte is `readCounter()` on the levels the
counter lines show at that moment. `env k pin` is the level of `pin` at the
read-out of the call number `k` since start-up. -/
def generateRandomByte (P : Platform) (env : Nat → Nat → Bool) (s : State) : Byte × State :=
  (readCounter P.counterPins (env s.samples), { s with samples := s.samples + 1 })

/-- Source `generatedKey[i] = b`; the loop below never produces an index past the
16-byte buffer. -/
def writeKey (key : Block) (i : Nat) (b : Byte) : Block :=
  if h : i < 16 then key.set ⟨i, h⟩ b else key

/-- The loop `for (int i = 0; i < 16; i++) generatedKey[i] = generateRandomByte();`
from index `i` on, with `fuel` iterations left. -/
def generateKey_loop (P : Platform) (env : Nat → Nat → Bool) : Nat → Nat → State → State
  | 0, _, s => s
  | fuel + 1, i, s =>
    let r := generateRandomByte P env s
    let s1 := r.2
    let s2 := { s1 with dev := { s1.dev with generatedKey := writeKey s1.dev.generatedKey i r.1 } }
    generateKey_loop P env fuel (i + 1) s2

/-- Step 1 of `runPasswordGeneration`: sixteen iterations starting at 0. -/
def generateKey (P : Platform) (env : Nat → Nat → Bool) (s : State) : State :=
  generateKey_loop P env 16 0 s

/-- Source `runPasswordGeneration(client)`: assemble the key, pad it, encrypt the
padded buffer with a copy of the IV, send `paddedLen` bytes of the result.
`none` when `encryptedData` would be sent without having been written. -/
def runPasswordGeneration (P : Platform) (env : Nat → Nat → Bool) (client : Client)
    (s : State) : Option (Client × State) :=
  let s := generateKey P env s
  let padded := applyPadding (s.dev.generatedKey.toList.take KEY_SIZE)
  let paddedLen := padded.1
  let paddedData := padded.2
  let iv_copy := P.iv
  match encrypt_cbc P paddedData paddedLen P.encryptionKey iv_copy with
  | none => none
  | some encryptedData =>
    some (client.print (sendToPC s.dev.passwordLength s.dev.complexityLevel
            (encryptedData.take paddedLen)), s)

/-! ## Menu navigation -/

/-- Source `do_action_up()`. -/
def do_action_up (P : Platform) (d : Device) : Device :=
  let selector := d.selector - 1
  let selector := if selector < 0 then P.MENU_ITEMS_COUNT - 1 else selector
  let top_line_index := if selector < d.top_line_index then selector else d.top_line_index
  { d with selector := selector, top_line_index := top_line_index }

/-- Source `do_action_down()`. -/
def do_action_down (P : Platform) (d : Device) : Device :=
  let selector := d.selector + 1
  let selector := if selector ≥ P.MENU_ITEMS_COUNT then 0 else selector
  let top_line_index :=
    if selector ≥ d.top_line_index + 3 then selector - 2 else d.top_line_index
  { d with selector := selector, top_line_index := top_line_index }

/-- The `while (setting)` loop of `chooseLength`, read with the braces as
they stand in the source: the brace opened after the `BUTTON_UP` test is not
closed on its line, so the `BUTTON_DOWN` and `BUTTON_SELECT` tests sit inside
the `BUTTON_UP` block. `passwordLength` is the current value; the result is
the value when the loop is left, `none` when it never is. -/
def chooseLength_loop : List Sample → Int → Option Int
  | [], _ => none
  | smp :: rest, passwordLength =>
    if smp.debounced then
      if smp.up then
        let passwordLength := passwordLength + 1
        let passwordLength := if passwordLength > 64 then 64 else passwordLength
        let passwordLength :=
          if smp.down then
            (if passwordLength - 1 < 8 then 8 else passwordLength - 1)
          else passwordLength
        if smp.select then some passwordLength
        else chooseLength_loop rest passwordLength
      else chooseLength_loop rest passwordLength
    else chooseLength_loop rest passwordLength

/-- Source `chooseLength()`: returns once its loop is left. -/
def chooseLength (P : Platform) (d : Device) : Option Device :=
  match chooseLength_loop P.lengthPanel d.passwordLength with
  | none => none
  | some passwordLength => some { d with passwordLength := passwordLength }

/-- The `while (setting)` loop of `chooseComplexity`: `tempSelector` moves
with wrap-around on up and down, and select leaves the loop with
`tempSelector` as the value stored in `complexityLevel`; `none` when the loop
is never left. -/
def chooseComplexity_loop (numComplexityLevels : Int) : List Sample → Int → Option Int
  | [], _ => none
  | smp :: rest, tempSelector =>
    if smp.debounced then
      let tempSelector :=
        if smp.up then
          (if tempSelector - 1 < 0 then numComplexityLevels - 1 else tempSelector - 1)
        else tempSelector
      let tempSelector :=
        if smp.down then
          (if tempSelector + 1 ≥ numComplexityLevels then 0 else tempSelector + 1)
        else tempSelector
      if smp.select then some tempSelector
      else chooseComplexity_loop numComplexityLevels rest tempSelector
    else chooseComplexity_loop numComplexityLevels rest tempSelector

/-- Source `chooseComplexity()`: `tempSelector` starts at `complexityLevel`;
returns once its loop is left. -/
def chooseComplexity (P : Platform) (d : Device) : Option Device :=
  match chooseComplexity_loop P.numComplexityLevels P.complexityPanel d.complexityLevel with
  | none => none
  | some tempSelector => some { d with complexityLevel := tempSelector }

/-- The wait `while(digitalRead(BUTTON_SELECT) == HIGH);` of `displayAbout`:
`true` when a poll reads `LOW` and the wait ends, `false` when it never
does. -/
def displayAbout_wait : List Bool → Bool
  | [] => false
  | low :: rest => if low then true else displayAbout_wait rest

/-- Source `displayAbout()`: draws, then returns once the wait ends; it
changes no device variable. -/
def displayAbout (P : Platform) (d : Device) : Option Device :=
  if displayAbout_wait P.aboutReads then some d else none

/-- Source `performAction()`: entry 0 only draws on the display, entries 1 and
2 open the length and complexity screens, entry 3 the about screen, any other
value falls through the `switch`. `none` when the screen opened is never
left. -/
def performAction (P : Platform) (d : Device) : Option Device :=
  if d.selector = 0 then some d
  else if d.selector = 1 then chooseLength P d
  else if d.selector = 2 then chooseComplexity P d
  else if d.selector = 3 then displayAbout P d
  else some d

/-- The vertical position `drawMenu` gives the `>` cursor. -/
def selector_y_pos (d : Device) : Int :=
  5 + (d.selector - d.top_line_index) * 10

/-- The menu entries `drawMenu` prints: the indices `top_line_index + i` for
`i = 0, 1, 2` that are below `MENU_ITEMS_COUNT`. -/
def drawnItems (P : Platform) (d : Device) : List Int :=
  ([0, 1, 2].map fun i => d.top_line_index + i).filter fun item_index =>
    decide (item_index < P.MENU_ITEMS_COUNT)

/-- The selected entry lies inside the menu and inside the three-line window
that `drawMenu` renders. -/
def cursorVisible (P : Platform) (d : Device) : Prop :=
  0 ≤ d.selector ∧ d.selector < P.MENU_ITEMS_COUNT ∧
    d.top_line_index ≤ d.selector ∧ d.selector ≤ d.top_line_index + 2

instance (P : Platform) (d : Device) : Decidable (cursorVisible P d) := by
  unfold cursorVisible
  infer_instance

/-! ## Request dispatcher: `handleRemoteClient` -/

/-- Source `currentLine.startsWith(name)`. -/
def startsWith (currentLine : List Char) (name : String) : Bool :=
  name.toList.isPrefixOf currentLine

/-- The `if`/`else if` chain run when a line feed is read. `none` when the
handler called never returns (the encryption step of `runPasswordGeneration`
always writes its output, see `runPasswordGeneration_eq`). -/
def dispatch (P : Platform) (env : Nat → Nat → Bool) (currentLine : List Char)
    (client : Client) (s : State) : Option (Client × State) :=
  if startsWith currentLine "GET_DATA" then
    runPasswordGeneration P env client { s with dispatched := Command.GET_DATA :: s.dispatched }
  else if startsWith currentLine "CMD_UP" then
    some (client, { s with dev := do_action_up P s.dev,
                           dispatched := Command.CMD_UP :: s.dispatched })
  else if startsWith currentLine "CMD_DOWN" then
    some (client, { s with dev := do_action_down P s.dev,
                           dispatched := Command.CMD_DOWN :: s.dispatched })
  else if startsWith currentLine "CMD_SELECT" then
    match performAction P s.dev with
    | none => none
    | some dev =>
      some (client, { s with dev := dev,
                             dispatched := Command.CMD_SELECT :: s.dispatched })
  else
    some (client, s)

/-- The `while (client.connected())` loop: `incoming` is what is still to
arrive, `currentLine` the characters gathered so far. Returns the client with
its unread input and the state at the point the loop is left. -/
def readLoop (P : Platform) (env : Nat → Nat → Bool) :
    List (Option Char) → List Char → Client → State → Option (Client × State)
  | [], _, client, s => some ({ client with incoming := [] }, s)
  | none :: rest, _, client, s => some ({ client with incoming := none :: rest }, s)
  | some c :: rest, currentLine, client, s =>
    if c = '\n' then
      dispatch P env currentLine { client with incoming := rest } s
    else if c ≠ '\r' then
      readLoop P env rest (currentLine ++ [c]) client s
    else
      readLoop P env rest currentLine client s

/-- Source `handleRemoteClient()`: `server.available()` yields `conn`; with a client,
read one line, dispatch, and stop the client. -/
def handleRemoteClient (P : Platform) (env : Nat → Nat → Bool) (conn : Option Client)
    (s : State) : Option (Option Client × State) :=
  match conn with
  | none => some (none, s)
  | some client =>
    match readLoop P env client.incoming [] client s with
    | none => none
    | some r => some (some r.1.stop, r.2)

/-- A connection on which nothing has been sent yet and that is open. -/
def freshClient (incoming : List (Option Char)) : Client :=
  { incoming := incoming, sent := [], stopped := false }

/-- The characters of `text` arriving one after the other, each in time. -/
def arriving (text : List Char) : List (Option Char) :=
  text.map some

/-- The received line: the characters before the first line feed, carriage
returns removed. -/
def lineOf (received : List Char) : List Char :=
  (received.takeWhile fun c => c ≠ '\n').filter fun c => c ≠ '\r'

/-- What is still unread once the line feed has been read: the characters
after the first line feed. -/
def afterLine (received : List Char) : List Char :=
  (received.dropWhile fun c => c ≠ '\n').tail

/-- The CBC encryption, under the fixed key and IV, of a 16-byte key followed
by its padding block of sixteen `0x10` bytes: the first block is the transform
of `key XOR iv`, the second the transform of `padding XOR first block`. -/
def cbcOfPaddedKey (P : Platform) (key : Block) : List Byte :=
  let c1 := P.aes_encrypt P.encryptionKey (xorBlock key P.iv)
  let c2 := P.aes_encrypt P.encryptionKey (xorBlock (Mathlib.Vector.replicate 16 0x10) c1)
  c1.toList ++ c2.toList

/-! ## A concrete platform for evaluation -/

/-- A platform with a four-entry menu, counter lines on pins 0 to 7, and a
stand-in block transform (XOR with the key) in place of AES. -/
def demoPlatform : Platform where
  MENU_ITEMS_COUNT := 4
  counterPins := fun i => i
  encryptionKey := Mathlib.Vector.replicate 16 0x5A
  iv := Mathlib.Vector.replicate 16 0x01
  aes_encrypt := fun key blk => xorBlock key blk
  numComplexityLevels := 3
  lengthPanel := [{ debounced := true, up := true, down := false, select := true }]
  complexityPanel := [{ debounced := true, up := false, down := true, select := false },
                      { debounced := true, up := false, down := false, select := true }]
  aboutReads := [false, true]

/-- Counter lines that show the call number in binary at each read-out. -/
def demoEnv : Nat → Nat → Bool :=
  fun k pin => k.testBit pin

/-- A device with the first entry selected and the window at the top, length 8
and complexity 0. -/
def demoDevice : Device where
  selector := 0
  top_line_index := 0
  passwordLength := 8
  complexityLevel := 0
  generatedKey := Mathlib.Vector.replicate 16 0

/-- That device before any sample is taken or handler called. -/
def demoState : State where
  dev := demoDevice
  samples := 0
  dispatched := []

end Kluchnik

namespace Kluchnik

/-! ## Wire encoder -/

set_option maxRecDepth 100000 in
theorem sprintf_02X_byte : ∀ b : Byte,
    sprintf_02X b.val = String.mk [hexDigitUpper (b.val / 16), hexDigitUpper (b.val % 16)] := by
  decide

theorem hexValue_hexDigitUpper : ∀ d : Fin 16, hexValue (hexDigitUpper d.val) = some d.val := by
  decide

theorem hexField_cons (b : Byte) (rest : List Byte) :
    hexField (b :: rest) =
      String.mk [hexDigitUpper (b.val / 16), hexDigitUpper (b.val % 16)] ++ hexField rest := by
  apply String.ext
  simp [hexField]

theorem sendToPC_loop_eq (data : List Byte) (payload : String) :
    sendToPC_loop data payload = payload ++ hexField data := by
  induction data generalizing payload with
  | nil => simp [sendToPC_loop, hexField, String.join]
  | cons b rest ih =>
    rw [sendToPC_loop, ih, sprintf_02X_byte, hexField_cons, String.append_assoc]

theorem hexField_length (data : List Byte) : (hexField data).length = 2 * data.length := by
  induction data with
  | nil => rfl
  | cons b rest ih =>
    rw [hexField_cons, String.length_append, ih, String.length_mk, List.length_cons]
    simp only [List.length_cons, List.length_nil]
    omega

theorem hexField_digits (data : List Byte) (i : Nat) (h : i < data.length) :
    (hexField data).data[2 * i]? = some (hexDigitUpper ((data.get ⟨i, h⟩).val / 16)) ∧
    (hexField data).data[2 * i + 1]? = some (hexDigitUpper ((data.get ⟨i, h⟩).val % 16)) := by
  induction data generalizing i with
  | nil => simp at h
  | cons b rest ih =>
    rw [hexField_cons, String.data_append]
    cases i with
    | zero => simp
    | succ j =>
      have hj : j < rest.length := by simpa using h
      have e1 : 2 * (j + 1) = 2 * j + 1 + 1 := by ring
      rw [e1]
      simpa using ih j hj

theorem sendToPC_eq (passwordLength complexityLevel : Int) (data : List Byte) :
    sendToPC passwordLength complexityLevel data =
      "LEN:" ++ stringOfInt passwordLength ++ ",COMPLEX:" ++ stringOfInt complexityLevel ++
        ",KEY:" ++ hexField data ++ "\n" := by
  simp only [sendToPC, sendToPC_loop_eq]

/-- C1: for every `passwordLength`, `complexityLevel` and byte sequence,
`sendToPC` prints exactly `LEN:` + decimal + `,COMPLEX:` + decimal + `,KEY:` +
hex + newline; the hex field has two characters per byte, the characters at
positions `2i` and `2i+1` being the uppercase hex digits of the high and low
nibble of byte `i` (each digit decodes back to its nibble); and the bytes
`00 01` with length 8 and complexity 0 give `LEN:8,COMPLEX:0,KEY:0001`. -/
theorem sendToPC_wire_format (passwordLength complexityLevel : Int) (data : List Byte) :
    sendToPC passwordLength complexityLevel data =
        "LEN:" ++ stringOfInt passwordLength ++ ",COMPLEX:" ++ stringOfInt complexityLevel ++
          ",KEY:" ++ hexField data ++ "\n" ∧
      (hexField data).length = 2 * data.length ∧
      (∀ (i : Nat) (h : i < data.length),
        (hexField data).data[2 * i]? = some (hexDigitUpper ((data.get ⟨i, h⟩).val / 16)) ∧
        (hexField data).data[2 * i + 1]? = some (hexDigitUpper ((data.get ⟨i, h⟩).val % 16))) ∧
      (∀ d : Fin 16, hexValue (hexDigitUpper d.val) = some d.val) ∧
      sendToPC 8 0 [0x00, 0x01] = "LEN:8,COMPLEX:0,KEY:0001\n" := by
  exact ⟨sendToPC_eq passwordLength complexityLevel data, hexField_length data,
    hexField_digits data, hexValue_hexDigitUpper, by decide⟩

/-! ## Padding -/

theorem toByte_val_of_lt (n : Nat) (h : n < 256) : (toByte n).val = n := by
  simp [toByte, Nat.mod_eq_of_lt h]

/-- C2: for every input of length `n`, with `p = 16 - n mod 16`, `applyPadding`
returns `n + p` and writes the input followed by exactly `p` bytes of value
`p`; `p` is between 1 and 16 and is 16 when `n` is a multiple of 16; the
returned length is the smallest multiple of 16 that is at least `n + 1`; and a
16-byte input gives length 32 with the last 16 bytes equal to `0x10`. -/
theorem applyPadding_pkcs7 (input : List Byte) :
    (applyPadding input).1 = input.length + (16 - input.length % 16) ∧
      (applyPadding input).2 =
        input ++ List.replicate (16 - input.length % 16) (toByte (16 - input.length % 16)) ∧
      (toByte (16 - input.length % 16)).val = 16 - input.length % 16 ∧
      (applyPadding input).2.length = (applyPadding input).1 ∧
      (1 ≤ 16 - input.length % 16 ∧ 16 - input.length % 16 ≤ 16) ∧
      (input.length % 16 = 0 → 16 - input.length % 16 = 16) ∧
      (16 ∣ (applyPadding input).1 ∧ input.length + 1 ≤ (applyPadding input).1 ∧
        ∀ m : Nat, 16 ∣ m → input.length + 1 ≤ m → (applyPadding input).1 ≤ m) ∧
      (input.length = 16 →
        (applyPadding input).1 = 32 ∧ (applyPadding input).2.take 16 = input ∧
          (applyPadding input).2.drop 16 = List.replicate 16 (0x10 : Byte)) := by
  have hlt : input.length % 16 < 16 := Nat.mod_lt _ (by decide)
  refine ⟨rfl, rfl, ?_, ?_, ?_, ?_, ?_, ?_⟩
  · exact toByte_val_of_lt _ (by omega)
  · simp [applyPadding, BLOCK_SIZE]
  · omega
  · omega
  · simp only [applyPadding, BLOCK_SIZE]
    refine ⟨?_, by omega, ?_⟩
    · omega
    · intro m hm hle
      obtain ⟨k, rfl⟩ := hm
      omega
  · intro h16
    refine ⟨by simp [applyPadding, BLOCK_SIZE, h16], ?_, ?_⟩
    · simp only [applyPadding]
      rw [List.take_left' h16]
    · simp only [applyPadding, BLOCK_SIZE, h16]
      rw [List.drop_left' h16]
      rfl

/-! ## Counter read-out -/

theorem readCounter_bools : ∀ b0 b1 b2 b3 b4 b5 b6 b7 : Bool,
    ∀ (cp : Nat → Nat) (dr : Nat → Bool),
      dr (cp 0) = b0 → dr (cp 1) = b1 → dr (cp 2) = b2 → dr (cp 3) = b3 →
      dr (cp 4) = b4 → dr (cp 5) = b5 → dr (cp 6) = b6 → dr (cp 7) = b7 →
      (readCounter cp dr).val =
        (if b0 then 1 else 0) + (if b1 then 2 else 0) + (if b2 then 4 else 0) +
        (if b3 then 8 else 0) + (if b4 then 16 else 0) + (if b5 then 32 else 0) +
        (if b6 then 64 else 0) + (if b7 then 128 else 0) := by
  intro b0 b1 b2 b3 b4 b5 b6 b7 cp dr h0 h1 h2 h3 h4 h5 h6 h7
  simp only [readCounter, readCounter_loop, h0, h1, h2, h3, h4, h5, h6, h7]
  clear h0 h1 h2 h3 h4 h5 h6 h7
  revert b0 b1 b2 b3 b4 b5 b6 b7
  decide

theorem byteOfBits_testBit : ∀ b0 b1 b2 b3 b4 b5 b6 b7 : Bool,
    (byteOfBits b0 b1 b2 b3 b4 b5 b6 b7).testBit 0 = b0 ∧
    (byteOfBits b0 b1 b2 b3 b4 b5 b6 b7).testBit 1 = b1 ∧
    (byteOfBits b0 b1 b2 b3 b4 b5 b6 b7).testBit 2 = b2 ∧
    (byteOfBits b0 b1 b2 b3 b4 b5 b6 b7).testBit 3 = b3 ∧
    (byteOfBits b0 b1 b2 b3 b4 b5 b6 b7).testBit 4 = b4 ∧
    (byteOfBits b0 b1 b2 b3 b4 b5 b6 b7).testBit 5 = b5 ∧
    (byteOfBits b0 b1 b2 b3 b4 b5 b6 b7).testBit 6 = b6 ∧
    (byteOfBits b0 b1 b2 b3 b4 b5 b6 b7).testBit 7 = b7 := by
  decide

theorem readCounter_eq_byteOfBits (counterPins : Nat → Nat) (digitalRead : Nat → Bool) :
    (readCounter counterPins digitalRead).val =
      byteOfBits (digitalRead (counterPins 0)) (digitalRead (counterPins 1))
        (digitalRead (counterPins 2)) (digitalRead (counterPins 3))
        (digitalRead (counterPins 4)) (digitalRead (counterPins 5))
        (digitalRead (counterPins 6)) (digitalRead (counterPins 7)) :=
  readCounter_bools _ _ _ _ _ _ _ _ counterPins digitalRead rfl rfl rfl rfl rfl rfl rfl rfl

/-- C9: for every assignment of levels to the counter lines, bit `i` (0 to 7)
of the byte `readCounter` returns is set exactly when line `counterPins[i]`
reads `HIGH`; the byte is the sum of `2^i` over the lines that read `HIGH`;
and it lies in 0..255. -/
theorem readCounter_bits (counterPins : Nat → Nat) (digitalRead : Nat → Bool) :
    (∀ i : Nat, i < 8 →
        ((readCounter counterPins digitalRead).val.testBit i = true ↔
          digitalRead (counterPins i) = true)) ∧
      (readCounter counterPins digitalRead).val =
        ∑ i ∈ Finset.range 8, (if digitalRead (counterPins i) = true then 2 ^ i else 0) ∧
      (readCounter counterPins digitalRead).val ≤ 255 := by
  refine ⟨?_, ?_, by have := (readCounter counterPins digitalRead).isLt; omega⟩
  · intro i hi
    rw [readCounter_eq_byteOfBits]
    have h := byteOfBits_testBit (digitalRead (counterPins 0)) (digitalRead (counterPins 1))
      (digitalRead (counterPins 2)) (digitalRead (counterPins 3))
      (digitalRead (counterPins 4)) (digitalRead (counterPins 5))
      (digitalRead (counterPins 6)) (digitalRead (counterPins 7))
    obtain ⟨h0, h1, h2, h3, h4, h5, h6, h7⟩ := h
    interval_cases i
    · rw [h0]
    · rw [h1]
    · rw [h2]
    · rw [h3]
    · rw [h4]
    · rw [h5]
    · rw [h6]
    · rw [h7]
  · rw [readCounter_eq_byteOfBits]
    simp [Finset.sum_range_succ, byteOfBits]

/-! ## Key assembly -/

theorem writeKey_get (key : Block) (i : Nat) (b : Byte) (hi : i < 16) (j : Fin 16) :
    (writeKey key i b).get j = if j.val = i then b else key.get j := by
  unfold writeKey
  rw [dif_pos hi]
  by_cases hj : j.val = i
  · rw [if_pos hj]
    have : j = ⟨i, hi⟩ := Fin.ext hj
    rw [this, Mathlib.Vector.get_set_same]
  · rw [if_neg hj]
    have hne : (⟨i, hi⟩ : Fin 16) ≠ j := fun h => hj (by rw [← h])
    rw [Mathlib.Vector.get_set_of_ne hne]

theorem generateKey_loop_spec (P : Platform) (env : Nat → Nat → Bool) :
    ∀ (fuel i : Nat) (s : State), i + fuel = 16 →
      (generateKey_loop P env fuel i s).samples = s.samples + fuel ∧
      (generateKey_loop P env fuel i s).dispatched = s.dispatched ∧
      (generateKey_loop P env fuel i s).dev.selector = s.dev.selector ∧
      (generateKey_loop P env fuel i s).dev.top_line_index = s.dev.top_line_index ∧
      (generateKey_loop P env fuel i s).dev.passwordLength = s.dev.passwordLength ∧
      (generateKey_loop P env fuel i s).dev.complexityLevel = s.dev.complexityLevel ∧
      ∀ j : Fin 16, (generateKey_loop P env fuel i s).dev.generatedKey.get j =
        if j.val < i then s.dev.generatedKey.get j
        else readCounter P.counterPins (env (s.samples + (j.val - i))) := by
  intro fuel
  induction fuel with
  | zero =>
    intro i s h
    refine ⟨rfl, rfl, rfl, rfl, rfl, rfl, ?_⟩
    intro j
    have hj := j.isLt
    rw [if_pos (by omega)]
    rfl
  | succ fuel ih =>
    intro i s h
    have hi : i < 16 := by omega
    obtain ⟨h1, h2, h3, h4, h5, h6, h7⟩ := ih (i + 1)
      { s with
        samples := s.samples + 1
        dev := { s.dev with
          generatedKey :=
            writeKey s.dev.generatedKey i (readCounter P.counterPins (env s.samples)) } }
      (by omega)
    dsimp only at h1 h2 h3 h4 h5 h6 h7
    simp only [generateKey_loop, generateRandomByte]
    refine ⟨by rw [h1]; omega, h2, h3, h4, h5, h6, ?_⟩
    intro j
    rw [h7 j]
    simp only [writeKey_get _ _ _ hi]
    clear h1 h2 h3 h4 h5 h6 h7 ih
    by_cases hlt : j.val < i
    · have h1 : j.val < i + 1 := by omega
      have h2 : ¬ j.val = i := by omega
      rw [if_pos h1, if_pos hlt, if_neg h2]
    · rw [if_neg hlt]
      by_cases heq : j.val = i
      · have h1 : j.val < i + 1 := by omega
        rw [if_pos h1, if_pos heq, heq, Nat.sub_self, Nat.add_zero]
      · have h1 : ¬ j.val < i + 1 := by omega
        have h2 : s.samples + 1 + (j.val - (i + 1)) = s.samples + (j.val - i) := by omega
        rw [if_neg h1, h2]

theorem generateKey_key (P : Platform) (env : Nat → Nat → Bool) (s : State) :
    (generateKey P env s).dev.generatedKey =
      Mathlib.Vector.ofFn fun i : Fin 16 => readCounter P.counterPins (env (s.samples + i.val)) := by
  apply Mathlib.Vector.ext
  intro j
  rw [Mathlib.Vector.get_ofFn]
  have h := (generateKey_loop_spec P env 16 0 s rfl).2.2.2.2.2.2 j
  rw [if_neg (by omega), Nat.sub_zero] at h
  exact h

theorem generateKey_rest (P : Platform) (env : Nat → Nat → Bool) (s : State) :
    (generateKey P env s).samples = s.samples + 16 ∧
      (generateKey P env s).dispatched = s.dispatched ∧
      (generateKey P env s).dev.selector = s.dev.selector ∧
      (generateKey P env s).dev.top_line_index = s.dev.top_line_index ∧
      (generateKey P env s).dev.passwordLength = s.dev.passwordLength ∧
      (generateKey P env s).dev.complexityLevel = s.dev.complexityLevel := by
  obtain ⟨h1, h2, h3, h4, h5, h6, _⟩ := generateKey_loop_spec P env 16 0 s rfl
  exact ⟨h1, h2, h3, h4, h5, h6⟩

/-- C7: for every entropy source, the key-assembly step calls
`generateRandomByte` exactly 16 times (the call count grows by 16) and stores
the byte of call `i` (in call order) at `generatedKey[i]`; the assembled key
has exactly 16 bytes; and a source that shows the same levels at every call
yields sixteen copies of the same byte. -/
theorem generateKey_sixteen_calls (P : Platform) (env : Nat → Nat → Bool) (s : State)
    (levels : Nat → Bool) :
    (generateKey P env s).samples = s.samples + 16 ∧
      (∀ i : Fin 16, (generateKey P env s).dev.generatedKey.get i =
        (generateRandomByte P env { s with samples := s.samples + i.val }).1) ∧
      (generateKey P env s).dev.generatedKey.toList =
        List.ofFn (fun i : Fin 16 => readCounter P.counterPins (env (s.samples + i.val))) ∧
      (generateKey P env s).dev.generatedKey.toList.length = 16 ∧
      (generateKey P (fun _ => levels) s).dev.generatedKey =
        Mathlib.Vector.replicate 16 (readCounter P.counterPins levels) := by
  refine ⟨(generateKey_rest P env s).1, ?_, ?_, by simp, ?_⟩
  · intro i
    rw [generateKey_key, Mathlib.Vector.get_ofFn]
    rfl
  · rw [generateKey_key, Mathlib.Vector.toList_ofFn]
  · rw [generateKey_key]
    apply Mathlib.Vector.ext
    intro j
    rw [Mathlib.Vector.get_ofFn, Mathlib.Vector.get_replicate]

/-! ## Password generation -/

theorem readBlock_append (b : Block) (rest : List Byte) :
    readBlock (b.toList ++ rest) = some b := by
  have ht : (b.toList ++ rest).take 16 = b.toList := List.take_left' b.toList_length
  unfold readBlock
  rw [dif_pos (by rw [ht]; exact b.toList_length)]
  congr 1
  exact Subtype.ext ht

theorem readBlock_toList (b : Block) : readBlock b.toList = some b := by
  have h := readBlock_append b []
  rwa [List.append_nil] at h

theorem encrypt_cbc_padded_key (P : Platform) (key : Block) :
    encrypt_cbc P (key.toList ++ List.replicate 16 (0x10 : Byte)) 32 P.encryptionKey P.iv =
      some (cbcOfPaddedKey P key) := by
  have hpad : List.replicate 16 (0x10 : Byte) =
      (Mathlib.Vector.replicate 16 (0x10 : Byte)).toList := by
    simp [Mathlib.Vector.replicate, Mathlib.Vector.toList]
  have hdrop : (key.toList ++ List.replicate 16 (0x10 : Byte)).drop 16 =
      List.replicate 16 (0x10 : Byte) := List.drop_left' key.toList_length
  have h32 : ¬ (32 % 16 ≠ 0) := by decide
  have h2 : 32 / 16 = 2 := by decide
  unfold encrypt_cbc mbedtls_aes_crypt_cbc
  rw [if_neg h32, h2]
  simp only [cbc_loop, readBlock_append, hdrop]
  rw [hpad]
  simp only [readBlock_toList, cbcOfPaddedKey, List.append_nil]

theorem cbcOfPaddedKey_length (P : Platform) (key : Block) :
    (cbcOfPaddedKey P key).length = 32 := by
  simp [cbcOfPaddedKey]

theorem runPasswordGeneration_eq (P : Platform) (env : Nat → Nat → Bool) (client : Client)
    (s : State) :
    runPasswordGeneration P env client s =
      some (client.print (sendToPC s.dev.passwordLength s.dev.complexityLevel
              (cbcOfPaddedKey P (generateKey P env s).dev.generatedKey)),
            generateKey P env s) := by
  have hk : (generateKey P env s).dev.generatedKey.toList.take KEY_SIZE =
      (generateKey P env s).dev.generatedKey.toList :=
    List.take_of_length_le (by simp [KEY_SIZE])
  have hp : applyPadding (generateKey P env s).dev.generatedKey.toList =
      (32, (generateKey P env s).dev.generatedKey.toList ++ List.replicate 16 (0x10 : Byte)) := by
    simp [applyPadding, BLOCK_SIZE]
    rfl
  obtain ⟨_, _, _, _, hl, hc⟩ := generateKey_rest P env s
  unfold runPasswordGeneration
  simp only [hk, hp, encrypt_cbc_padded_key, hl, hc]
  rw [List.take_of_length_le (by rw [cbcOfPaddedKey_length])]

/-! ## Reading the line -/

theorem readLoop_arriving (P : Platform) (env : Nat → Nat → Bool)
    (tail : List (Option Char)) (client : Client) (s : State) :
    ∀ (received : List Char) (currentLine : List Char),
      readLoop P env (arriving received ++ tail) currentLine client s =
        if '\n' ∈ received then
          dispatch P env (currentLine ++ lineOf received)
            { client with incoming := arriving (afterLine received) ++ tail } s
        else readLoop P env tail (currentLine ++ lineOf received) client s := by
  intro received
  induction received with
  | nil =>
    intro cur
    simp [arriving, lineOf]
  | cons c r ih =>
    intro cur
    by_cases hc : c = '\n'
    · subst hc
      simp [arriving, lineOf, afterLine, readLoop]
    · by_cases hr : c = '\r'
      · subst hr
        have := ih cur
        simp only [arriving] at this
        simp [arriving, lineOf, afterLine, readLoop, this, List.takeWhile, List.dropWhile]
      · have := ih (cur ++ [c])
        simp only [arriving] at this
        have hc' : ¬ '\n' = c := fun h => hc h.symm
        simp [arriving, lineOf, afterLine, readLoop, this, List.takeWhile, List.dropWhile,
          hc, hr, hc']

theorem handleRemoteClient_line (P : Platform) (env : Nat → Nat → Bool) (s : State)
    (received : List Char) (tail : List (Option Char)) (hlf : '\n' ∈ received) :
    handleRemoteClient P env (some (freshClient (arriving received ++ tail))) s =
      match dispatch P env (lineOf received)
          { incoming := arriving (afterLine received) ++ tail, sent := [], stopped := false } s with
      | none => none
      | some r => some (some r.1.stop, r.2) := by
  simp only [handleRemoteClient, freshClient, readLoop_arriving, if_pos hlf, List.nil_append]

theorem handleRemoteClient_no_line (P : Platform) (env : Nat → Nat → Bool) (s : State)
    (received : List Char) (tail : List (Option Char)) (hlf : '\n' ∉ received) :
    handleRemoteClient P env (some (freshClient (arriving received ++ tail))) s =
      match readLoop P env tail (lineOf received)
          { incoming := arriving received ++ tail, sent := [], stopped := false } s with
      | none => none
      | some r => some (some r.1.stop, r.2) := by
  simp only [handleRemoteClient, freshClient, readLoop_arriving, if_neg hlf, List.nil_append]

/-! ## Request dispatcher -/

/-- C3: for every device state and entropy source, when a fresh connection
delivers characters that contain a line feed and whose line (before the first
line feed, carriage returns removed) starts with `GET_DATA`,
`handleRemoteClient` returns having sent exactly one string, of the form
`LEN:<passwordLength>,COMPLEX:<complexityLevel>,KEY:<hex>` plus newline, whose
hex field encodes the CBC encryption under the fixed key and IV of the sixteen
freshly sampled key bytes followed by sixteen `0x10` bytes (32 bytes, 64 hex
digits), and the client is stopped. -/
theorem handleRemoteClient_get_data (P : Platform) (env : Nat → Nat → Bool) (s : State)
    (received : List Char) (tail : List (Option Char)) (hlf : '\n' ∈ received)
    (hcmd : startsWith (lineOf received) "GET_DATA" = true) :
    handleRemoteClient P env (some (freshClient (arriving received ++ tail))) s =
        some (some { incoming := arriving (afterLine received) ++ tail,
                     sent := ["LEN:" ++ stringOfInt s.dev.passwordLength ++ ",COMPLEX:" ++
                       stringOfInt s.dev.complexityLevel ++ ",KEY:" ++
                       hexField (cbcOfPaddedKey P (Mathlib.Vector.ofFn fun i : Fin 16 =>
                         readCounter P.counterPins (env (s.samples + i.val)))) ++ "\n"],
                     stopped := true },
              generateKey P env { s with dispatched := Command.GET_DATA :: s.dispatched }) ∧
      (cbcOfPaddedKey P (Mathlib.Vector.ofFn fun i : Fin 16 =>
          readCounter P.counterPins (env (s.samples + i.val)))).length = 32 ∧
      (hexField (cbcOfPaddedKey P (Mathlib.Vector.ofFn fun i : Fin 16 =>
          readCounter P.counterPins (env (s.samples + i.val))))).length = 64 ∧
      encrypt_cbc P
          (applyPadding ((Mathlib.Vector.ofFn fun i : Fin 16 =>
            readCounter P.counterPins (env (s.samples + i.val))).toList)).2
          (applyPadding ((Mathlib.Vector.ofFn fun i : Fin 16 =>
            readCounter P.counterPins (env (s.samples + i.val))).toList)).1
          P.encryptionKey P.iv =
        some (cbcOfPaddedKey P (Mathlib.Vector.ofFn fun i : Fin 16 =>
          readCounter P.counterPins (env (s.samples + i.val)))) ∧
      (generateKey P env { s with dispatched := Command.GET_DATA :: s.dispatched }).dev.generatedKey =
        (Mathlib.Vector.ofFn fun i : Fin 16 =>
          readCounter P.counterPins (env (s.samples + i.val))) := by
  refine ⟨?_, cbcOfPaddedKey_length P _, ?_, ?_, generateKey_key P env _⟩
  · rw [handleRemoteClient_line P env s received tail hlf]
    simp only [dispatch, hcmd, if_true, runPasswordGeneration_eq, generateKey_key, sendToPC_eq]
    rfl
  · rw [hexField_length, cbcOfPaddedKey_length]
  · have hp : applyPadding ((Mathlib.Vector.ofFn fun i : Fin 16 =>
        readCounter P.counterPins (env (s.samples + i.val))).toList) =
        (32, (Mathlib.Vector.ofFn fun i : Fin 16 =>
          readCounter P.counterPins (env (s.samples + i.val))).toList ++
            List.replicate 16 (0x10 : Byte)) := by
      simp [applyPadding, BLOCK_SIZE]
      rfl
    rw [hp]
    exact encrypt_cbc_padded_key P _

/-- Witness for C3: on the demonstration platform, `GET_DATA` followed by a
carriage return and a line feed. -/
theorem handleRemoteClient_get_data_witness :
    handleRemoteClient demoPlatform demoEnv
        (some (freshClient (arriving "GET_DATA\r\n".toList ++ []))) demoState =
      some (some { incoming := [],
                   sent := ["LEN:8,COMPLEX:0,KEY:" ++
                     "5B5A59585F5E5D5C5352515057565554111013121514171619181B1A1D1C1F1E\n"],
                   stopped := true },
            { dev := { demoDevice with
                generatedKey := ⟨[0, 1, 2, 3, 4, 5, 6, 7, 8, 9, 10, 11, 12, 13, 14, 15], rfl⟩ },
              samples := 16, dispatched := [Command.GET_DATA] }) := by
  have h := (handleRemoteClient_get_data demoPlatform demoEnv demoState
    "GET_DATA\r\n".toList [] (by decide) (by decide)).1
  rw [h]
  decide

/-- C4: for every device state, handling a fresh connection that delivers
`CMD_UP` and a line feed returns with nothing sent and the client stopped,
calls `do_action_up` once, and leaves the selector at `selector - 1` when it
was positive and at `MENU_ITEMS_COUNT - 1` when it was zero; length,
complexity and key are untouched. -/
theorem handleRemoteClient_cmd_up (P : Platform) (env : Nat → Nat → Bool) (s : State)
    (tail : List (Option Char)) :
    handleRemoteClient P env (some (freshClient (arriving "CMD_UP\n".toList ++ tail))) s =
        some (some { incoming := tail, sent := [], stopped := true },
              { s with dev := do_action_up P s.dev,
                       dispatched := Command.CMD_UP :: s.dispatched }) ∧
      (0 < s.dev.selector → (do_action_up P s.dev).selector = s.dev.selector - 1) ∧
      (s.dev.selector = 0 → (do_action_up P s.dev).selector = P.MENU_ITEMS_COUNT - 1) ∧
      (do_action_up P s.dev).passwordLength = s.dev.passwordLength ∧
      (do_action_up P s.dev).complexityLevel = s.dev.complexityLevel ∧
      (do_action_up P s.dev).generatedKey = s.dev.generatedKey := by
  refine ⟨?_, ?_, ?_, rfl, rfl, rfl⟩
  · rw [handleRemoteClient_line P env s _ tail (by decide)]
    have h1 : startsWith (lineOf "CMD_UP\n".toList) "GET_DATA" = false := by decide
    have h2 : startsWith (lineOf "CMD_UP\n".toList) "CMD_UP" = true := by decide
    have h3 : afterLine "CMD_UP\n".toList = [] := by decide
    simp only [dispatch, h1, h2, h3]
    rfl
  · intro h
    have h' : ¬ (s.dev.selector - 1 < 0) := by omega
    simp only [do_action_up, if_neg h']
  · intro h
    have h' : s.dev.selector - 1 < 0 := by omega
    simp only [do_action_up, if_pos h']

/-- C5: for every received text that contains a line feed and whose line
starts with none of `GET_DATA`, `CMD_UP`, `CMD_DOWN`, `CMD_SELECT`,
`handleRemoteClient` returns with nothing sent, no handler called, the whole
state unchanged, and the client stopped. -/
theorem handleRemoteClient_unrecognized (P : Platform) (env : Nat → Nat → Bool) (s : State)
    (received : List Char) (tail : List (Option Char)) (hlf : '\n' ∈ received)
    (h1 : startsWith (lineOf received) "GET_DATA" = false)
    (h2 : startsWith (lineOf received) "CMD_UP" = false)
    (h3 : startsWith (lineOf received) "CMD_DOWN" = false)
    (h4 : startsWith (lineOf received) "CMD_SELECT" = false) :
    handleRemoteClient P env (some (freshClient (arriving received ++ tail))) s =
      some (some { incoming := arriving (afterLine received) ++ tail, sent := [],
                   stopped := true }, s) := by
  rw [handleRemoteClient_line P env s received tail hlf]
  simp only [dispatch, h1, h2, h3, h4]
  rfl

/-- Witness for C5: the lowercase `get_data` line is not recognized. -/
theorem handleRemoteClient_unrecognized_witness :
    handleRemoteClient demoPlatform demoEnv
        (some (freshClient (arriving "get_data\n".toList ++ []))) demoState =
      some (some { incoming := arriving (afterLine "get_data\n".toList) ++ [], sent := [],
                   stopped := true }, demoState) :=
  handleRemoteClient_unrecognized demoPlatform demoEnv demoState "get_data\n".toList []
    (by decide) (by decide) (by decide) (by decide) (by decide)

/-- C6: for every received text without a line feed that is followed by an
inactivity timeout, `handleRemoteClient` returns with nothing sent, no handler
called, the whole state unchanged, and the client stopped; whatever would
arrive after the timeout stays unread. -/
theorem handleRemoteClient_timeout (P : Platform) (env : Nat → Nat → Bool) (s : State)
    (received : List Char) (later : List (Option Char)) (hlf : '\n' ∉ received) :
    handleRemoteClient P env (some (freshClient (arriving received ++ none :: later))) s =
      some (some { incoming := none :: later, sent := [], stopped := true }, s) := by
  rw [handleRemoteClient_no_line P env s received _ hlf]
  rfl

/-- Witness for C6: the complete command name `GET_DATA` with no line feed,
then a timeout. -/
theorem handleRemoteClient_timeout_witness :
    handleRemoteClient demoPlatform demoEnv
        (some (freshClient (arriving "GET_DATA".toList ++ none :: []))) demoState =
      some (some { incoming := none :: [], sent := [], stopped := true }, demoState) :=
  handleRemoteClient_timeout demoPlatform demoEnv demoState "GET_DATA".toList [] (by decide)

/-! ## One command per connection -/

theorem do_action_up_keeps_cursor_visible (P : Platform) (d : Device)
    (hM : P.MENU_ITEMS_COUNT = 4) (h : cursorVisible P d) (hpos : 0 < d.selector) :
    cursorVisible P (do_action_up P d) := by
  obtain ⟨h0, h1, h2, h3⟩ := h
  have hn : ¬ (d.selector - 1 < 0) := by omega
  simp only [cursorVisible, do_action_up, if_neg hn, hM] at *
  split_ifs <;> omega

theorem do_action_down_keeps_cursor_visible (P : Platform) (d : Device)
    (hM : P.MENU_ITEMS_COUNT = 4) (h : cursorVisible P d) (hlast : d.selector < 3) :
    cursorVisible P (do_action_down P d) := by
  obtain ⟨h0, h1, h2, h3⟩ := h
  have hn : ¬ (d.selector + 1 ≥ P.MENU_ITEMS_COUNT) := by omega
  simp only [cursorVisible, do_action_down, if_neg hn, hM] at *
  split_ifs <;> omega

theorem do_action_up_wrap_hides_cursor (P : Platform) (d : Device)
    (hM : P.MENU_ITEMS_COUNT = 4) (h : cursorVisible P d) (hfirst : d.selector = 0) :
    ¬ cursorVisible P (do_action_up P d) := by
  obtain ⟨h0, h1, h2, h3⟩ := h
  have hn : d.selector - 1 < 0 := by omega
  simp only [cursorVisible, do_action_up, if_pos hn, hM] at *
  split_ifs <;> omega

theorem do_action_down_wrap_hides_cursor (P : Platform) (d : Device)
    (hM : P.MENU_ITEMS_COUNT = 4) (h : cursorVisible P d) (hlast : d.selector = 3) :
    ¬ cursorVisible P (do_action_down P d) := by
  obtain ⟨h0, h1, h2, h3⟩ := h
  have hn : d.selector + 1 ≥ P.MENU_ITEMS_COUNT := by omega
  simp only [cursorVisible, do_action_down, if_pos hn, hM] at *
  split_ifs <;> omega

/-- C10: with a menu of four entries the predicate "selector inside the menu
and inside the three-line window" is not preserved by the wrap-around steps.
From selector 0 with the window at 0 `do_action_up` gives
selector 3 with the window still at 0, so entries 0, 1, 2 are drawn and the
cursor sits at vertical position 35, below them; from selector 3 with the
window at 1 `do_action_down` gives selector 0 with the window still at 1, so
the cursor position is -5. -/
theorem menu_wrap_breaks_window :
    cursorVisible demoPlatform demoDevice ∧
      do_action_up demoPlatform demoDevice =
        { demoDevice with selector := 3, top_line_index := 0 } ∧
      ¬ cursorVisible demoPlatform (do_action_up demoPlatform demoDevice) ∧
      drawnItems demoPlatform (do_action_up demoPlatform demoDevice) = [0, 1, 2] ∧
      selector_y_pos (do_action_up demoPlatform demoDevice) = 35 ∧
      cursorVisible demoPlatform { demoDevice with selector := 3, top_line_index := 1 } ∧
      do_action_down demoPlatform { demoDevice with selector := 3, top_line_index := 1 } =
        { demoDevice with selector := 0, top_line_index := 1 } ∧
      ¬ cursorVisible demoPlatform
        (do_action_down demoPlatform { demoDevice with selector := 3, top_line_index := 1 }) ∧
      selector_y_pos
        (do_action_down demoPlatform { demoDevice with selector := 3, top_line_index := 1 }) =
          -5 := by
  decide

end Kluchnik
